import Mathlib

/-!
Verification of the tennis-chatbot backend against its design specification.

The development shallowly embeds the Python modules that the claims touch:

  * `services/tennis_logic/data_parser.py`  (event-list, H2H parsing)
  * `services/tennis_logic/player_finder.py` (player-name resolution)
  * `core/llm_processor.py`                  (tool-calling orchestration loop)
  * `api/session_manager.py`                 (session history updates)

JSON values are modelled by the inductive type `JValue`; Python dictionaries
are association lists with first-match lookup (Python dicts have unique keys,
so first-match agrees with dict lookup on every value a Python dict can take).
Python code that can raise is embedded in the `Except String` monad, with the
exception's Python class name used as the error message; the blanket
`except Exception` handlers of the source become a `match` on the `Except`
result.  I/O (the upstream sports API, the web-search API, the LLM) is
modelled by oracle functions supplied as explicit arguments, so every
definition is a pure, executable function of its inputs.
-/

/-- JSON-like values as produced by the upstream tennis API and passed
around the Python code.  Floats do not occur in any claim-relevant path and
are omitted. -/
inductive JValue where
  | jnull
  | jbool (b : Bool)
  | jint (n : Int)
  | jstr (s : String)
  | jarr (xs : List JValue)
  | jobj (fields : List (String × JValue))

/-- A Python dictionary with string keys. -/
abbrev JDict := List (String × JValue)

mutual

/-- Structural equality, mirroring Python `==` on JSON trees. -/
def jvBeq : JValue → JValue → Bool
  | JValue.jnull, JValue.jnull => true
  | JValue.jbool a, JValue.jbool b => a == b
  | JValue.jint a, JValue.jint b => a == b
  | JValue.jstr a, JValue.jstr b => a == b
  | JValue.jarr a, JValue.jarr b => jvBeqList a b
  | JValue.jobj a, JValue.jobj b => jvBeqFields a b
  | _, _ => false

/-- Elementwise equality of JSON arrays (helper for `jvBeq`). -/
def jvBeqList : List JValue → List JValue → Bool
  | [], [] => true
  | x :: xs, y :: ys => jvBeq x y && jvBeqList xs ys
  | _, _ => false

/-- Fieldwise equality of JSON objects (helper for `jvBeq`). -/
def jvBeqFields : List (String × JValue) → List (String × JValue) → Bool
  | [], [] => true
  | (k, v) :: xs, (l, w) :: ys => k == l && jvBeq v w && jvBeqFields xs ys
  | _, _ => false

end

instance : BEq JValue := ⟨jvBeq⟩

/-- First-match lookup in an association list; agrees with Python dict
lookup because Python dicts have unique keys. -/
def jlookup : JDict → String → Option JValue
  | [], _ => none
  | (k, v) :: rest, key => if k == key then some v else jlookup rest key

/-- Python `key in dict`. -/
def hasKey (d : JDict) (k : String) : Bool := (jlookup d k).isSome

/-- Python truthiness of a JSON value. -/
def JValue.truthy : JValue → Bool
  | JValue.jnull => false
  | JValue.jbool b => b
  | JValue.jint n => n != 0
  | JValue.jstr s => s ≠ ""
  | JValue.jarr xs => !xs.isEmpty
  | JValue.jobj d => !d.isEmpty

/-- The empty Python dict `{}`. -/
def emptyObj : JValue := JValue.jobj []

/-- Python `x.get(k, dflt)`: defaulted dict lookup, raising `AttributeError`
when the receiver is not a dict. -/
def pyGetD : JValue → String → JValue → Except String JValue
  | JValue.jobj fields, k, dflt => Except.ok ((jlookup fields k).getD dflt)
  | _, _, _ => Except.error "AttributeError"

/-- Python `x.get(k)` (default `None`). -/
def pyGet (v : JValue) (k : String) : Except String JValue :=
  pyGetD v k JValue.jnull

/-- Python `x[k]` for a string key: `KeyError` when the key is absent,
`TypeError` when the receiver is not a dict. -/
def pySubscript : JValue → String → Except String JValue
  | JValue.jobj fields, k =>
      match jlookup fields k with
      | some v => Except.ok v
      | none => Except.error "KeyError"
  | _, _ => Except.error "TypeError"

/-- Python `a or b` restricted to the use site `(x or {})`. -/
def pyOr (a b : JValue) : JValue := if a.truthy then a else b

/-- Python iteration `for x in v`: lists yield elements, strings yield
one-character strings, dicts yield their keys, everything else raises
`TypeError`. -/
def pyIterate : JValue → Except String (List JValue)
  | JValue.jarr xs => Except.ok xs
  | JValue.jstr s => Except.ok (s.data.map (fun c => JValue.jstr (String.mk [c])))
  | JValue.jobj d => Except.ok (d.map (fun p => JValue.jstr p.1))
  | _ => Except.error "TypeError"

/-! ## Event-list simplifier (`data_parser.parse_event_list`) -/

/-- One iteration of the loop body of `parse_event_list`: reduce a raw event
to the eight preview fields, in the evaluation order of the Python source
(the six `event.get` calls, then the dict-literal values in key order). -/
def simplify_event (event : JValue) : Except String JValue := do
  let tournament_info ← pyGetD event "tournament" emptyObj
  let home_team_info ← pyGetD event "homeTeam" emptyObj
  let away_team_info ← pyGetD event "awayTeam" emptyObj
  let status_info ← pyGetD event "status" emptyObj
  let home_score_info ← pyGetD event "homeScore" emptyObj
  let away_score_info ← pyGetD event "awayScore" emptyObj
  let tname ← pyGet tournament_info "name"
  let categoryRaw ← pyGet tournament_info "category"
  let cname ← pyGet (pyOr categoryRaw emptyObj) "name"
  let hname ← pyGet home_team_info "name"
  let aname ← pyGet away_team_info "name"
  let status ← pyGetD status_info "description" (JValue.jstr "Scheduled")
  let eid ← pyGet event "id"
  return JValue.jobj
    [("tournament", tname), ("category", cname), ("home_player", hname),
     ("away_player", aname), ("status", status), ("event_id", eid),
     ("home_score", home_score_info), ("away_score", away_score_info)]

/-- The `for event in events[:25]` loop, accumulating `simplified_events`. -/
def simplifyEvents : List JValue → Except String (List JValue)
  | [] => Except.ok []
  | e :: es => do
      let s ← simplify_event e
      let rest ← simplifyEvents es
      return s :: rest

/-- Body of the `try` block of `parse_event_list`.  A truthy `events` value
is sliced (`events[:25]`), which succeeds for lists and strings and raises
`TypeError` otherwise; the per-character branch then raises inside
`simplify_event` exactly as iterating a string does in Python. -/
def parseEventListCore (raw : JDict) : Except String JDict := do
  let events := (jlookup raw "events").getD (JValue.jarr [])
  if events.truthy then
    match events with
    | JValue.jarr xs => do
        let simplified ← simplifyEvents (xs.take 25)
        return [("total_events_found", JValue.jint (Int.ofNat xs.length)),
                ("events_returned", JValue.jint (Int.ofNat simplified.length)),
                ("events_preview", JValue.jarr simplified)]
    | JValue.jstr s => do
        let simplified ← simplifyEvents
          ((s.data.take 25).map (fun c => JValue.jstr (String.mk [c])))
        return [("total_events_found", JValue.jint (Int.ofNat s.length)),
                ("events_returned", JValue.jint (Int.ofNat simplified.length)),
                ("events_preview", JValue.jarr simplified)]
    | _ => Except.error "TypeError"
  else
    return [("summary", JValue.jstr "No events found for this query.")]

/-- The error payload produced by the `except` branch of `parse_event_list`. -/
def errEventList : JDict :=
  [("error", JValue.jstr "Failed to parse the event list from the Tennis API.")]

/-- Embeds `data_parser.parse_event_list`: pass error payloads through
untouched, otherwise run the `try` body with the blanket `except` handler. -/
def parse_event_list (raw_data : JDict) : JDict :=
  if hasKey raw_data "error" then raw_data
  else
    match parseEventListCore raw_data with
    | Except.ok d => d
    | Except.error _ => errEventList

/-! ## Head-to-head aggregation (`data_parser.parse_h2h_data`) -/

mutual

/-- Python `str()` of a JSON value as interpolated by f-strings.  Strings
render as themselves; other values render via `repr`.  (Escaping of quote
characters inside nested strings is not modelled; no theorem depends on the
rendering of containers.) -/
def pyStr : JValue → String
  | JValue.jstr s => s
  | v => pyRepr v

/-- Python `repr()` of a JSON value. -/
def pyRepr : JValue → String
  | JValue.jnull => "None"
  | JValue.jbool true => "True"
  | JValue.jbool false => "False"
  | JValue.jint n => toString n
  | JValue.jstr s => "\x27" ++ s ++ "\x27"
  | JValue.jarr xs => "[" ++ pyReprList xs ++ "]"
  | JValue.jobj d => "\x7b" ++ pyReprFields d ++ "\x7d"

/-- Comma-separated `repr` of list elements. -/
def pyReprList : List JValue → String
  | [] => ""
  | [x] => pyRepr x
  | x :: xs => pyRepr x ++ ", " ++ pyReprList xs

/-- Comma-separated `repr` of dict items. -/
def pyReprFields : List (String × JValue) → String
  | [] => ""
  | [(k, v)] => "\x27" ++ k ++ "\x27: " ++ pyRepr v
  | (k, v) :: xs => "\x27" ++ k ++ "\x27: " ++ pyRepr v ++ ", " ++ pyReprFields xs

end

/-- Python `v == n` for an int literal or int-valued variable `n`:
`True == 1` and `False == 0` hold in Python, every non-numeric value
compares unequal. -/
def pyEqInt (v : JValue) (n : Int) : Bool :=
  match v with
  | JValue.jint m => m == n
  | JValue.jbool b => (if b then (1 : Int) else 0) == n
  | _ => false

/-- Python `v == s` for a string literal `s`. -/
def pyEqStr (v : JValue) (s : String) : Bool :=
  match v with
  | JValue.jstr t => t == s
  | _ => false

/-- Python `v[0]`: first element of a list, first character of a string,
`KeyError`/`TypeError` otherwise (dicts have no integer key here). -/
def pySub0 : JValue → Except String JValue
  | JValue.jarr (x :: _) => Except.ok x
  | JValue.jarr [] => Except.error "IndexError"
  | JValue.jstr s =>
      match s.data with
      | c :: _ => Except.ok (JValue.jstr (String.mk [c]))
      | [] => Except.error "IndexError"
  | JValue.jobj _ => Except.error "KeyError"
  | _ => Except.error "TypeError"

/-- Python `v[:n]`: slicing succeeds on lists and strings and raises
`TypeError` otherwise. -/
def pySliceN (v : JValue) (n : Nat) : Except String (List JValue)
  :=
  match v with
  | JValue.jarr xs => Except.ok (xs.take n)
  | JValue.jstr s => Except.ok ((s.data.take n).map (fun c => JValue.jstr (String.mk [c])))
  | _ => Except.error "TypeError"

/-- Python `datetime.datetime.fromtimestamp(v).strftime(fmt)` with the
calendar abstracted into the supplied `fmt` oracle; non-numeric timestamps
raise `TypeError` as in Python (`True`/`False` count as `1`/`0`). -/
def pyTimestamp (fmt : Int → String) : JValue → Except String JValue
  | JValue.jint n => Except.ok (JValue.jstr (fmt n))
  | JValue.jbool b => Except.ok (JValue.jstr (fmt (if b then 1 else 0)))
  | _ => Except.error "TypeError"

/-- The win-count loop body of `parse_h2h_data` for one match (the
`if`/`elif` chain over `winnerCode` and the home/away team ids). -/
def h2hWinsStep (p1 p2 : Int) (acc : Nat × Nat) (m : JValue) :
    Except String (Nat × Nat) := do
  let wc ← pyGet m "winnerCode"
  let htm ← pyGetD m "homeTeam" emptyObj
  let hid ← pyGet htm "id"
  let atm ← pyGetD m "awayTeam" emptyObj
  let aid ← pyGet atm "id"
  if pyEqInt wc 1 && pyEqInt hid p1 then return (acc.1 + 1, acc.2)
  else if pyEqInt wc 1 && pyEqInt hid p2 then return (acc.1, acc.2 + 1)
  else if pyEqInt wc 2 && pyEqInt aid p1 then return (acc.1 + 1, acc.2)
  else if pyEqInt wc 2 && pyEqInt aid p2 then return (acc.1, acc.2 + 1)
  else return acc

/-- The full win-count loop (`for match in h2h_events`). -/
def h2hWins (p1 p2 : Int) : List JValue → Nat × Nat → Except String (Nat × Nat)
  | [], acc => Except.ok acc
  | m :: ms, acc => do
      let acc2 ← h2hWinsStep p1 p2 acc m
      h2hWins p1 p2 ms acc2

/-- Canonical-name extraction from the first event (the `if h2h_events:`
block of `parse_h2h_data`). -/
def canonicalFrom (events : JValue) (p1 p2 : Int) (n1 n2 : String) :
    Except String (JValue × JValue) := do
  let e0 ← pySub0 events
  let home_team ← pyGetD e0 "homeTeam" emptyObj
  let away_team ← pyGetD e0 "awayTeam" emptyObj
  let hid ← pyGet home_team "id"
  let c1 ← if pyEqInt hid p1 then pyGetD home_team "name" (JValue.jstr n1)
           else Except.ok (JValue.jstr n1)
  let aid ← pyGet away_team "id"
  let c2 ← if pyEqInt aid p2 then pyGetD away_team "name" (JValue.jstr n2)
           else Except.ok (JValue.jstr n2)
  return (c1, c2)

/-- Canonical names: the query strings unless the first event overrides
them (no first event is consulted when `events` is falsy). -/
def h2hCanonical (events : JValue) (p1 p2 : Int) (n1 n2 : String) :
    Except String (JValue × JValue) :=
  if events.truthy then canonicalFrom events p1 p2 n1 n2
  else Except.ok (JValue.jstr n1, JValue.jstr n2)

/-- The five period keys scanned by the score-string comprehension. -/
def periodKeys : List String := ["period1", "period2", "period3", "period4", "period5"]

/-- The list comprehension building `score_parts`: for each period key with
a truthy home value, format `home-away` (the away subscript may raise
`KeyError`). -/
def scoreParts (hs asc : JValue) : List String → Except String (List String)
  | [] => Except.ok []
  | k :: rest => do
      let c ← pyGet hs k
      if c.truthy then do
        let hv ← pySubscript hs k
        let av ← pySubscript asc k
        let more ← scoreParts hs asc rest
        return (pyStr hv ++ "-" ++ pyStr av) :: more
      else
        scoreParts hs asc rest

/-- One `recent_matches` entry (loop over `h2h_events[:3]`), following the
evaluation order of the Python dict literal. -/
def recentMatch (fmt : Int → String) (m : JValue) : Except String JValue := do
  let hs ← pyGetD m "homeScore" emptyObj
  let asc ← pyGetD m "awayScore" emptyObj
  let parts ← scoreParts hs asc periodKeys
  let ts ← pyGet m "startTimestamp"
  let date ← if ts.truthy then do
        let tv ← pySubscript m "startTimestamp"
        pyTimestamp fmt tv
      else Except.ok (JValue.jstr "N/A")
  let tour ← pyGetD m "tournament" emptyObj
  let tname ← pyGet tour "name"
  let wc ← pyGet m "winnerCode"
  let winner ← if pyEqInt wc 1 then do
        let ht ← pyGetD m "homeTeam" emptyObj
        pyGet ht "name"
      else do
        let at2 ← pyGetD m "awayTeam" emptyObj
        pyGet at2 "name"
  let joined := String.intercalate ", " parts
  let score := JValue.jstr (if joined ≠ "" then joined else "Score not available")
  return JValue.jobj
    [("date", date), ("tournament", tname), ("winner", winner), ("score", score)]

/-- The `recent_matches` accumulation loop. -/
def recentMatches (fmt : Int → String) : List JValue → Except String (List JValue)
  | [] => Except.ok []
  | m :: ms => do
      let r ← recentMatch fmt m
      let rest ← recentMatches fmt ms
      return r :: rest

/-- Python dict-literal insertion: a repeated key keeps its position and
takes the later value. -/
def pyInsert (d : JDict) (k : String) (v : JValue) : JDict :=
  if hasKey d k then d.map (fun p => if p.1 == k then (k, v) else p)
  else d ++ [(k, v)]

/-- The leader sentence of the H2H summary. -/
def leadsSentence (a b : JValue) (x y : Nat) : String :=
  pyStr a ++ " leads " ++ pyStr b ++ " " ++ toString x ++ "-" ++ toString y ++
    " in their head-to-head."

/-- The tied sentence of the H2H summary. -/
def tiedSentence (a b : JValue) (x : Nat) : String :=
  "The head-to-head record between " ++ pyStr a ++ " and " ++ pyStr b ++
    " is tied " ++ toString x ++ "-" ++ toString x ++ "."

/-- Body of the `try` block of `parse_h2h_data`, in source order: events
extraction, canonical names, win counts, recent matches, summary text. -/
def parseH2HCore (h2h : JDict) (p1 p2 : Int) (n1 n2 : String)
    (fmt : Int → String) : Except String JDict := do
  let events := (jlookup h2h "events").getD (JValue.jarr [])
  let cpair ← h2hCanonical events p1 p2 n1 n2
  let evlist ← pyIterate events
  let wins ← h2hWins p1 p2 evlist (0, 0)
  let first3 ← pySliceN events 3
  let recents ← recentMatches fmt first3
  let summary :=
    if wins.1 > wins.2 then leadsSentence cpair.1 cpair.2 wins.1 wins.2
    else if wins.2 > wins.1 then leadsSentence cpair.2 cpair.1 wins.2 wins.1
    else tiedSentence cpair.1 cpair.2 wins.1
  let record := pyInsert (pyInsert [] (pyStr cpair.1 ++ "_wins") (JValue.jint (Int.ofNat wins.1)))
    (pyStr cpair.2 ++ "_wins") (JValue.jint (Int.ofNat wins.2))
  return [("summary", JValue.jstr summary),
          ("overall_record", JValue.jobj record),
          ("recent_matches", JValue.jarr recents)]

/-- Embeds `data_parser.parse_h2h_data` with its blanket `except` handler. -/
def parse_h2h_data (h2h : JDict) (p1 p2 : Int) (n1 n2 : String)
    (fmt : Int → String) : JDict :=
  match parseH2HCore h2h p1 p2 n1 n2 fmt with
  | Except.ok d => d
  | Except.error _ => [("error", JValue.jstr "Failed to parse H2H data.")]

/-! ## Player resolver (`player_finder.find_player_id_by_name`) -/

/-- Python `s.lower()` (ASCII case folding; the claim-relevant paths only
compare case-folded tokens). -/
def pyLower (s : String) : String := String.mk (s.data.map Char.toLower)

/-- Python `s.split()` over the character list: split on whitespace runs,
discarding empty parts. -/
def splitWSAux : List Char → List Char → List String
  | [], acc => if acc.isEmpty then [] else [String.mk acc.reverse]
  | c :: cs, acc =>
      if c.isWhitespace then
        if acc.isEmpty then splitWSAux cs []
        else String.mk acc.reverse :: splitWSAux cs []
      else splitWSAux cs (c :: acc)

/-- Python `s.split()`. -/
def splitWS (s : String) : List String := splitWSAux s.data []

/-- Python `s.replace(ch, "")` for a one-character pattern. -/
def removeChar (ch : Char) (s : String) : String :=
  String.mk (s.data.filter (fun c => c != ch))

/-- First-occurrence de-duplication of strings, the value of a Python `set`
built from a list.  (CPython iterates a set in an unspecified order; every
use below is order-insensitive, so first-occurrence order is a sound
representative.) -/
def dedupStr : List String → List String → List String
  | [], _ => []
  | x :: xs, seen =>
      if seen.contains x then dedupStr xs seen
      else x :: dedupStr xs (x :: seen)

/-- Python `set(p for p in name.lower().replace(".", "").split() if p)`. -/
def queryParts (name : String) : List String :=
  dedupStr (splitWS (removeChar '.' (pyLower name))) []

/-- The candidate-name token set:
`set(p for p in api_name.replace(",", "").replace(".", "").split() if p)`. -/
def apiNameParts (apiName : String) : List String :=
  dedupStr (splitWS (removeChar '.' (removeChar ',' apiName))) []

/-- Python `set(search_terms)` where
`search_terms = [player_name] (+ [player_name.split()[-1]] if multi-token)`. -/
def searchTerms (name : String) : List String :=
  let ws := splitWS name
  dedupStr (if ws.length > 1 then [name, ws.getLastD ""] else [name]) []

/-- Python `s.startswith(pre)` over character lists. -/
def strStartsAux : List Char → List Char → Bool
  | _, [] => true
  | [], _ :: _ => false
  | a :: as, b :: bs => a == b && strStartsAux as bs

/-- Python `s.startswith(pre)`. -/
def strStarts (s pre : String) : Bool := strStartsAux s.data pre.data

/-- Relaxed token equality of the resolver: exact match, or one side is a
single-character initial that is a prefix of the other token. -/
def partMatch (q a : String) : Bool :=
  q == a || (a.data.length == 1 && strStarts q a) ||
    (q.data.length == 1 && strStarts a q)

/-- The matching loop: every query token must find some candidate token
under `partMatch`. -/
def allPartsMatched (qs aps : List String) : Bool :=
  qs.all (fun q => aps.any (fun a => partMatch q a))

/-- Python `s.lower()` on a fetched JSON value: `AttributeError` unless it
is a string. -/
def pyLowerJ : JValue → Except String String
  | JValue.jstr s => Except.ok (pyLower s)
  | _ => Except.error "AttributeError"

/-- Processing of one search `result`: keep the entity when the result is a
player whose tokenized name is a relaxed-equality superset of the query
tokens, following the source's evaluation order (and its laziness: the
`entity.get("id")` truthiness test runs only for `type == "player"`). -/
def processResult (qs : List String) (result : JValue) :
    Except String (Option JValue) := do
  let entity ← pyGetD result "entity" emptyObj
  let rtype ← pyGet result "type"
  if pyEqStr rtype "player" then do
    let idv ← pyGet entity "id"
    if idv.truthy then do
      let nameJ ← pyGetD entity "name" (JValue.jstr "")
      let apiName ← pyLowerJ nameJ
      if allPartsMatched qs (apiNameParts apiName) then return (some entity)
      else return none
    else return none
  else return none

/-- The inner `for result in search_data.get("results", [])` loop. -/
def collectFromItems (qs : List String) : List JValue → Except String (List JValue)
  | [] => Except.ok []
  | r :: rs => do
      let m ← processResult qs r
      let rest ← collectFromItems qs rs
      return (match m with | some e => e :: rest | none => rest)

/-- Handling of one search response (`if "error" in ... or not ...: continue`). -/
def collectFromResponse (qs : List String) (d : JDict) :
    Except String (List JValue) :=
  if hasKey d "error" then Except.ok []
  else if ((jlookup d "results").getD JValue.jnull).truthy then do
    let items ← pyIterate ((jlookup d "results").getD (JValue.jarr []))
    collectFromItems qs items
  else Except.ok []

/-- Accumulation of `potential_matches` over every search strategy.  The
upstream API is the oracle `api`, mapping a search term to its response
dict (`make_api_request` always returns a dict). -/
def collectAll (api : String → JDict) (qs : List String) :
    List String → Except String (List JValue)
  | [] => Except.ok []
  | t :: ts => do
      let xs ← collectFromResponse qs (api t)
      let ys ← collectAll api qs ts
      return xs ++ ys

/-- Hashability of a JSON value as a Python dict key. -/
def hashable : JValue → Bool
  | JValue.jarr _ => false
  | JValue.jobj _ => false
  | _ => true

/-- Python dict insertion `d[k] = v`: an existing key keeps its position
and original key object, later values overwrite. -/
def upsertJ (acc : List (JValue × JValue)) (k v : JValue) : List (JValue × JValue) :=
  if acc.any (fun p => jvBeq p.1 k) then
    acc.map (fun p => if jvBeq p.1 k then (p.1, v) else p)
  else acc ++ [(k, v)]

/-- The de-duplication dict `{match["id"]: match for match in potential_matches}`
(the subscript cannot fail on appended entities, but the model keeps the
`KeyError`/unhashable cases of Python). -/
def buildUnique : List JValue → List (JValue × JValue) →
    Except String (List (JValue × JValue))
  | [], acc => Except.ok acc
  | m :: ms, acc => do
      let idv ← pySubscript m "id"
      if hashable idv then buildUnique ms (upsertJ acc idv m)
      else Except.error "TypeError"

/-- Embeds `player_finder.find_player_id_by_name`.  The function returns
`some id` only when exactly one de-duplicated candidate survives; `none`
for zero or several. -/
def find_player_id_by_name (api : String → JDict) (name : String) :
    Except String (Option JValue) := do
  let qs := queryParts name
  if qs.isEmpty then return none
  else do
    let pmatches ← collectAll api qs (searchTerms name)
    if pmatches.isEmpty then return none
    else do
      let uniq ← buildUnique pmatches []
      match uniq with
      | [(_, m)] => do
          let pid ← pyGet m "id"
          return (some pid)
      | _ => return none

/-! ## Tool-calling orchestrator (`core/llm_processor.process_chat_request`)

The Gemini transport is abstracted into an oracle giving the model's
response to each turn's `send_message` call, and each registered tool body
into an oracle giving its outcome (a returned payload, or a raised
exception).  `perform_web_search` catches all its own exceptions and always
returns a dict, so the web-search oracle is total. -/

/-- One message of a conversation (`schemas.chat_schemas.ChatMessage`). -/
structure ChatMessage where
  role : String
  content : String

/-- A part of a Gemini response: plain text or a function call. -/
inductive LLMPart where
  | text (s : String)
  | call (name : String) (args : JValue)

/-- Returns true on function-call parts (`part.function_call` truthiness). -/
def LLMPart.isCall : LLMPart → Bool
  | LLMPart.call _ _ => true
  | LLMPart.text _ => false

/-- A Gemini response: its list of parts. -/
structure LLMResp where
  parts : List LLMPart

/-- Python `response.text`: the concatenated text, or `None` standing for
the `ValueError` the SDK raises when the response contains a function call
or no parts at all. -/
def respText (r : LLMResp) : Option String :=
  if r.parts.any LLMPart.isCall then none
  else if r.parts.isEmpty then none
  else some (String.join (r.parts.map (fun p =>
    match p with | LLMPart.text s => s | LLMPart.call _ _ => "")))

/-- Outcome of executing one registered tool body: a returned payload or a
raised exception with its message. -/
inductive ToolOutcome where
  | ok (payload : JDict)
  | exn (msg : String)

/-- The environment of a chat request: the LLM response for each turn
index, the registered tool implementations, and `perform_web_search`. -/
structure OrchEnv where
  llm : Nat → LLMResp
  exec : String → JValue → ToolOutcome
  webSearch : String → JDict

/-- The `TOOL_REGISTRY` of `core/tool_definitions.py`, with the trailing
module name of each implementation (`__module__.split(".")[-1]`) used by
the source-label bookkeeping. -/
def TOOL_REGISTRY : List (String × String) :=
  [("find_match_and_get_details", "tennis_api_client"),
   ("get_scheduled_events_by_date", "tennis_api_client"),
   ("get_live_events", "tennis_api_client"),
   ("get_odds_by_date", "tennis_api_client"),
   ("get_event_statistics", "tennis_api_client"),
   ("get_player_performance", "tennis_api_client"),
   ("get_h2h_events", "tennis_api_client"),
   ("get_rankings", "tennis_api_client"),
   ("perform_web_search", "web_search_client"),
   ("debug_api_search", "tennis_api_client")]

/-- Registry lookup (`function_name in TOOL_REGISTRY`). -/
def registryLookup : List (String × String) → String → Option String
  | [], _ => none
  | (n, m) :: rest, name => if n == name then some m else registryLookup rest name

/-- Mutable loop state: the `used_sources` list, plus an instrumentation
counter of `perform_web_search` fallback invocations (not part of the
source's return value; used only to state call-count properties). -/
structure ToolState where
  sources : List String
  wsCalls : Nat

/-- The per-tool-call body of the orchestrator turn loop: unknown tools get
an error payload; known tools run inside the per-tool `try`, recording the
source label and applying the smart web-search fallback to returned error
payloads of primary tools; a raised exception is wrapped into the
`Execution failed` payload. -/
def execPart (env : OrchEnv) (query : String) (st : ToolState)
    (name : String) (args : JValue) : JDict × ToolState :=
  match registryLookup TOOL_REGISTRY name with
  | none => ([("error", JValue.jstr ("Tool \x27" ++ name ++ "\x27 not found."))], st)
  | some module =>
    match env.exec name args with
    | ToolOutcome.exn msg =>
        ([("error", JValue.jstr ("Execution failed for tool \x27" ++ name ++ "\x27: " ++ msg))], st)
    | ToolOutcome.ok out =>
        let srcName := module ++ ": " ++ name
        let st1 : ToolState :=
          if st.sources.contains srcName then st
          else { st with sources := st.sources ++ [srcName] }
        if hasKey out "error" && name != "perform_web_search" then
          let ws := env.webSearch query
          let st2 : ToolState :=
            { st1 with sources := st1.sources ++ ["web_search_client: perform_web_search"],
                       wsCalls := st1.wsCalls + 1 }
          ([("original_tool_error", JValue.jobj out),
            ("web_search_context",
              (jlookup ws "context").getD (JValue.jstr "No information found from web search."))],
           st2)
        else (out, st1)

/-- The `for part in response.parts` loop of one turn: text parts are
skipped, each function call is executed and its response payload queued in
request order. -/
def processParts (env : OrchEnv) (query : String) (st : ToolState) :
    List LLMPart → List (String × JDict) × ToolState
  | [] => ([], st)
  | LLMPart.text _ :: rest => processParts env query st rest
  | LLMPart.call name args :: rest =>
      let r := execPart env query st name args
      let more := processParts env query r.2 rest
      ((name, r.1) :: more.1, more.2)

/-- The value returned to the caller, extended with instrumentation
counters for the number of `send_message` calls and web-search fallbacks. -/
structure OrchResult where
  response : String
  sources : Option (List String)
  llmCalls : Nat
  wsCalls : Nat

/-- The fixed apology returned when the turn budget is exhausted. -/
def budgetApology : String :=
  "I\x27m having trouble finding an answer. Please try rephrasing your question."

/-- The `for turn_num in range(max_turns)` loop, structurally recursive on
the remaining turn budget. -/
def orchLoop (env : OrchEnv) (query : String) (st : ToolState)
    (turn : Nat) (calls : Nat) : Nat → OrchResult
  | 0 => { response := budgetApology, sources := none,
           llmCalls := calls, wsCalls := st.wsCalls }
  | r + 1 =>
      let resp := env.llm turn
      match respText resp with
      | some t =>
          { response := t,
            sources := if st.sources.isEmpty then none else some st.sources,
            llmCalls := calls + 1, wsCalls := st.wsCalls }
      | none =>
          let outs := processParts env query st resp.parts
          if outs.1.isEmpty then
            { response := "I tried to use a tool, but something went wrong. Please try again.",
              sources := none, llmCalls := calls + 1, wsCalls := outs.2.wsCalls }
          else orchLoop env query outs.2 (turn + 1) (calls + 1) r

/-- The constant `max_turns` of `process_chat_request`. -/
def maxTurns : Nat := 5

/-- Embeds `llm_processor.process_chat_request` for a request with the
given query.  The seeded history only influences the model through the
`env.llm` oracle, so it does not appear as a separate argument of the
loop. -/
def process_chat_request (env : OrchEnv) (query : String) : OrchResult :=
  orchLoop env query { sources := [], wsCalls := 0 } 0 0 maxTurns

/-! ## Session history (`api/session_manager.py`)

The Redis store is modelled as a map from key to the stored history; the
JSON serialization round-trip of `_save_history`/`get_history` is the
identity on message lists and is elided.  TTL expiry concerns wall-clock
time and is not part of any length claim. -/

/-- The Redis key space, restricted to the chat-session keys. -/
def SessionStore := String → Option (List ChatMessage)

/-- The store with no sessions. -/
def emptyStore : SessionStore := fun _ => none

/-- Embeds `session_manager.get_history`: empty session ids short-circuit
to `[]`, missing keys deserialize to `[]`. -/
def get_history (store : SessionStore) (sid : String) : List ChatMessage :=
  if sid = "" then [] else (store sid).getD []

/-- Embeds `session_manager._save_history`: a no-op for empty session ids. -/
def save_history (store : SessionStore) (sid : String)
    (h : List ChatMessage) : SessionStore :=
  if sid = "" then store
  else fun k => if k = sid then some h else store k

/-- Embeds `session_manager.update_history`: read the history, append the
user query and the model response, save. -/
def update_history (store : SessionStore) (sid : String)
    (user_query : ChatMessage) (model_response_content : String) : SessionStore :=
  let history := get_history store sid
  let history := if history.isEmpty then [] else history
  save_history store sid
    (history ++ [user_query, ChatMessage.mk "model" model_response_content])

/-! ## Well-formedness predicates and concrete instances used by the
theorems below.  The predicates carve out the inputs on which the Python
code runs to completion instead of raising; each is decidable and
evaluated on explicit witnesses. -/

/-- An optional field that Python may call `.get` on: absent, or a dict. -/
def isObjOpt : Option JValue → Bool
  | none => true
  | some (JValue.jobj _) => true
  | some _ => false

/-- Lookup inside a value known to be a dict (`none` otherwise). -/
def jlookupIn : JValue → String → Option JValue
  | JValue.jobj f, k => jlookup f k
  | _, _ => none

/-- The `category` field may be falsy (the `or {}` guard) or a dict. -/
def categoryOk : Option JValue → Bool
  | none => true
  | some c => !c.truthy || (match c with | JValue.jobj _ => true | _ => false)

/-- An event on which the `parse_event_list` loop body cannot raise. -/
def eventWF (e : JValue) : Bool :=
  match e with
  | JValue.jobj d =>
      isObjOpt (jlookup d "tournament") && isObjOpt (jlookup d "homeTeam") &&
      isObjOpt (jlookup d "awayTeam") && isObjOpt (jlookup d "status") &&
      categoryOk (jlookupIn ((jlookup d "tournament").getD emptyObj) "category")
  | _ => false

/-- The key list of every preview entry built by `simplify_event`. -/
def previewKeys : List String :=
  ["tournament", "category", "home_player", "away_player", "status",
   "event_id", "home_score", "away_score"]

/-- A dict reduced to exactly the preview fields, in order. -/
def reducedEntry : JValue → Bool
  | JValue.jobj d => d.map Prod.fst == previewKeys
  | _ => false

/-- An event on which the H2H win-count loop body cannot raise. -/
def h2hMatchWF (m : JValue) : Bool :=
  match m with
  | JValue.jobj d => isObjOpt (jlookup d "homeTeam") && isObjOpt (jlookup d "awayTeam")
  | _ => false

/-- A `startTimestamp` value `fromtimestamp` accepts (if truthy). -/
def tsOk : Option JValue → Bool
  | none => true
  | some v => !v.truthy || (match v with | JValue.jint _ => true | _ => false)

/-- Fields of an optional dict value. -/
def fieldsOfOpt : Option JValue → JDict
  | some (JValue.jobj f) => f
  | _ => []

/-- Every truthy home period has a matching away period (else the
comprehension's `away_score[...]` subscript raises `KeyError`). -/
def periodsOk (hsd asd : JDict) : Bool :=
  periodKeys.all (fun k => !((jlookup hsd k).getD JValue.jnull).truthy || hasKey asd k)

/-- An event on which the `recent_matches` loop body cannot raise. -/
def recentWF (m : JValue) : Bool :=
  match m with
  | JValue.jobj d =>
      isObjOpt (jlookup d "homeScore") && isObjOpt (jlookup d "awayScore") &&
      isObjOpt (jlookup d "tournament") && isObjOpt (jlookup d "homeTeam") &&
      isObjOpt (jlookup d "awayTeam") && tsOk (jlookup d "startTimestamp") &&
      periodsOk (fieldsOfOpt (jlookup d "homeScore")) (fieldsOfOpt (jlookup d "awayScore"))
  | _ => false

/-- The upstream id stored in a collected candidate entity. -/
def idOf : JValue → JValue
  | JValue.jobj d => (jlookup d "id").getD JValue.jnull
  | _ => JValue.jnull

/-- A collected candidate entity with an integer upstream id. -/
def matchWFplayer (m : JValue) : Bool :=
  match m with
  | JValue.jobj d => (match jlookup d "id" with
      | some (JValue.jint _) => true
      | _ => false)
  | _ => false

/-- Integer JSON values (Python dict keys produced by de-duplication). -/
def isJInt : JValue → Bool
  | JValue.jint _ => true
  | _ => false

/-- First-occurrence de-duplication of ids, seeded with already-seen keys;
`dedupInto [] ids` is the key order of the Python de-duplication dict. -/
def dedupInto (seen : List JValue) : List JValue → List JValue
  | [] => seen
  | x :: xs =>
      if seen.any (fun y => jvBeq y x) then dedupInto seen xs
      else dedupInto (seen ++ [x]) xs

/-- Invariant carried by the de-duplication dict: integer keys, well-formed
entity values, and each value's id equal to its key. -/
def accWF (acc : List (JValue × JValue)) : Bool :=
  acc.all (fun p => isJInt p.1 && matchWFplayer p.2 && jvBeq (idOf p.2) p.1)

/-- An adversarial environment whose model always answers with a tool call
and never with text. -/
def envLoop : OrchEnv :=
  { llm := fun _ => ⟨[LLMPart.call "get_rankings" JValue.jnull]⟩,
    exec := fun _ _ => ToolOutcome.ok [("rank", JValue.jint 1)],
    webSearch := fun _ => [] }

/-- An environment whose `get_h2h_events` implementation raises while the
other tools succeed. -/
def envExn : OrchEnv :=
  { llm := fun _ => ⟨[]⟩,
    exec := fun name _ =>
      if name == "get_h2h_events" then ToolOutcome.exn "boom"
      else ToolOutcome.ok [("ok", JValue.jint 1)],
    webSearch := fun _ => [] }

/-- An environment whose tools return an upstream error payload and whose
web search yields context. -/
def envFallback : OrchEnv :=
  { llm := fun _ => ⟨[]⟩,
    exec := fun _ _ => ToolOutcome.ok [("error", JValue.jstr "upstream 500")],
    webSearch := fun _ =>
      [("context", JValue.jstr "web context"),
       ("source", JValue.jstr "Google Custom Search API")] }

/-- An environment whose model opens with a clarifying question (plain
text, no tool call) on the first turn. -/
def envClarify : OrchEnv :=
  { llm := fun t =>
      if t == 0 then ⟨[LLMPart.text "Which match do you mean?"]⟩ else ⟨[]⟩,
    exec := fun _ _ => ToolOutcome.ok [],
    webSearch := fun _ => [] }

/-- A search response with a single well-formed player candidate. -/
def fedResult : JValue :=
  JValue.jobj [("type", JValue.jstr "player"),
    ("entity", JValue.jobj [("id", JValue.jint 42), ("name", JValue.jstr "Roger Federer")])]

/-- A search oracle returning the single candidate for every term. -/
def apiFed : String → JDict := fun _ => [("results", JValue.jarr [fedResult])]

/-- A sample head-to-head match event between player ids 10 and 20. -/
def h2hEvent (wc : Int) : JValue :=
  JValue.jobj [("winnerCode", JValue.jint wc),
    ("homeTeam", JValue.jobj [("id", JValue.jint 10), ("name", JValue.jstr "A")]),
    ("awayTeam", JValue.jobj [("id", JValue.jint 20), ("name", JValue.jstr "B")]),
    ("homeScore", JValue.jobj [("period1", JValue.jint 6), ("period2", JValue.jint 6)]),
    ("awayScore", JValue.jobj [("period1", JValue.jint 4), ("period2", JValue.jint 3)]),
    ("startTimestamp", JValue.jint 1700000000),
    ("tournament", JValue.jobj [("name", JValue.jstr "US Open")])]

/-- A head-to-head payload with four events, three won by the home player. -/
def h2hSample : JDict :=
  [("events", JValue.jarr [h2hEvent 1, h2hEvent 1, h2hEvent 1, h2hEvent 2])]

/-- A well-formed raw event for the event-list witness. -/
def eventSample : JValue :=
  JValue.jobj [("tournament", JValue.jobj [("name", JValue.jstr "Wimbledon"),
      ("category", JValue.jobj [("name", JValue.jstr "ATP")])]),
    ("homeTeam", JValue.jobj [("name", JValue.jstr "A")]),
    ("awayTeam", JValue.jobj [("name", JValue.jstr "B")]),
    ("status", JValue.jobj [("description", JValue.jstr "Finished")]),
    ("id", JValue.jint 7),
    ("homeScore", JValue.jobj [("current", JValue.jint 2)]),
    ("awayScore", JValue.jobj [])]

/-- The session store after `k` `update_history` calls for session `"s"`. -/
def storeAfter : Nat → SessionStore
  | 0 => emptyStore
  | k + 1 => update_history (storeAfter k) "s" (ChatMessage.mk "user" "hi") "ok"

/-- The stored history length for session `"s"` after `k` updates. -/
def storedLen (k : Nat) : Nat := (get_history (storeAfter k) "s").length

/-! ## Theorems -/

/-- Inversion of a successful monadic bind in `Except`. -/
theorem bindOk {α β : Type} {e : Except String α} {f : α → Except String β}
    {r : β} (h : (e >>= f) = Except.ok r) :
    ∃ v, e = Except.ok v ∧ f v = Except.ok r := by
  cases e with
  | ok v => exact ⟨v, rfl, h⟩
  | error msg => simp [Bind.bind, Except.bind] at h

/-- C10: an input dictionary containing an `error` key is returned by
`parse_event_list` itself, completely unchanged. -/
theorem parse_event_list_error_passthrough (raw : JDict)
    (h : hasKey raw "error" = true) : parse_event_list raw = raw := by
  simp [parse_event_list, h]

/-- Witness for C10 at a concrete error payload. -/
theorem parse_event_list_error_passthrough_witness :
    hasKey [("error", JValue.jstr "boom")] "error" = true ∧
      parse_event_list [("error", JValue.jstr "boom")] = [("error", JValue.jstr "boom")] :=
  ⟨rfl, parse_event_list_error_passthrough [("error", JValue.jstr "boom")] rfl⟩

/-- Helper: one `update_history` call appends the two new messages. -/
theorem update_history_append_eq (store : SessionStore) (sid : String)
    (uq : ChatMessage) (resp : String) (h : sid ≠ "") :
    get_history (update_history store sid uq resp) sid =
      get_history store sid ++ [uq, ChatMessage.mk "model" resp] := by
  unfold update_history save_history get_history
  simp only [h, if_false, if_neg h, if_pos rfl]
  cases hl : (store sid).getD [] <;> simp [hl]

/-- C9 (amended): `update_history` appends exactly the user query and the
model response to the stored history of a non-empty session id; no
trailing-window trimming occurs. -/
theorem update_history_appends (store : SessionStore) (sid : String)
    (uq : ChatMessage) (resp : String) (h : sid ≠ "") :
    get_history (update_history store sid uq resp) sid =
      get_history store sid ++ [uq, ChatMessage.mk "model" resp] :=
  update_history_append_eq store sid uq resp h

/-- Witness for the amended C9 at a concrete store and session. -/
theorem update_history_appends_witness :
    "s" ≠ "" ∧
      get_history (update_history emptyStore "s" (ChatMessage.mk "user" "hi") "ok") "s" =
        [ChatMessage.mk "user" "hi", ChatMessage.mk "model" "ok"] :=
  ⟨by decide,
   by rw [update_history_appends emptyStore "s" (ChatMessage.mk "user" "hi") "ok" (by decide)]; rfl⟩

/-- The stored history grows by two messages per update. -/
theorem storedLen_eq (k : Nat) : storedLen k = 2 * k := by
  induction k with
  | zero => rfl
  | succ n ih =>
      unfold storedLen storeAfter
      rw [update_history_append_eq _ _ _ _ (by decide)]
      rw [List.length_append]
      unfold storedLen at ih
      rw [ih]
      simp only [List.length_cons, List.length_nil]
      omega

/-- Counterexample to C9: no bound `N` caps the stored history length —
repeated `update_history` calls on session `"s"` grow it without bound. -/
theorem session_history_unbounded :
    ¬ ∃ N : Nat, ∀ k : Nat, storedLen k ≤ N := by
  intro h
  obtain ⟨N, hN⟩ := h
  have h1 := hN (N + 1)
  rw [storedLen_eq] at h1
  omega

/-- C5 (amended): a plain-text first reply from the model — including a
clarifying question asked before any tool use — is returned immediately as
the final answer; the loop is not resumed and no web-search fallback runs. -/
theorem text_reply_is_final (env : OrchEnv) (query s : String)
    (h : respText (env.llm 0) = some s) :
    process_chat_request env query =
      { response := s, sources := none, llmCalls := 1, wsCalls := 0 } := by
  unfold process_chat_request maxTurns orchLoop
  simp [h]

/-- Witness for the amended C5 at a concrete environment. -/
theorem text_reply_is_final_witness :
    respText (envClarify.llm 0) = some "Which match do you mean?" ∧
      process_chat_request envClarify "when did they play" =
        { response := "Which match do you mean?", sources := none, llmCalls := 1, wsCalls := 0 } :=
  ⟨rfl, text_reply_is_final envClarify "when did they play" "Which match do you mean?" rfl⟩

/-- Counterexample to C5 as stated: on a turn where the model asks a
clarifying question with no tool yet used, the orchestrator returns that
text as the final answer after a single LLM call and performs no forced
web search. -/
theorem clarifying_question_not_forced :
    process_chat_request envClarify "who won their last match" =
      { response := "Which match do you mean?", sources := none, llmCalls := 1, wsCalls := 0 } :=
  rfl

/-- Unfolding equation for one turn of the loop. -/
theorem orchLoop_succ (env : OrchEnv) (query : String) (st : ToolState)
    (turn calls n : Nat) :
    orchLoop env query st turn calls (n + 1) =
      match respText (env.llm turn) with
      | some t =>
          { response := t,
            sources := if st.sources.isEmpty then none else some st.sources,
            llmCalls := calls + 1, wsCalls := st.wsCalls }
      | none =>
          if (processParts env query st (env.llm turn).parts).1.isEmpty then
            { response := "I tried to use a tool, but something went wrong. Please try again.",
              sources := none, llmCalls := calls + 1,
              wsCalls := (processParts env query st (env.llm turn).parts).2.wsCalls }
          else
            orchLoop env query (processParts env query st (env.llm turn).parts).2
              (turn + 1) (calls + 1) n := rfl

/-- One turn when the model answers with plain text. -/
theorem orchLoop_turn_text (env : OrchEnv) (query : String) (st : ToolState)
    (turn calls n : Nat) (t : String) (h : respText (env.llm turn) = some t) :
    orchLoop env query st turn calls (n + 1) =
      { response := t,
        sources := if st.sources.isEmpty then none else some st.sources,
        llmCalls := calls + 1, wsCalls := st.wsCalls } := by
  rw [orchLoop_succ, h]

/-- One turn when the model answers with tool calls (no text). -/
theorem orchLoop_turn_tools (env : OrchEnv) (query : String) (st : ToolState)
    (turn calls n : Nat) (h : respText (env.llm turn) = none) :
    orchLoop env query st turn calls (n + 1) =
      (if (processParts env query st (env.llm turn).parts).1.isEmpty then
        { response := "I tried to use a tool, but something went wrong. Please try again.",
          sources := none, llmCalls := calls + 1,
          wsCalls := (processParts env query st (env.llm turn).parts).2.wsCalls }
      else
        orchLoop env query (processParts env query st (env.llm turn).parts).2
          (turn + 1) (calls + 1) n) := by
  rw [orchLoop_succ, h]

/-- The loop makes at most one LLM call per remaining-budget unit. -/
theorem orchLoop_calls_le (env : OrchEnv) (query : String) :
    ∀ (r : Nat) (st : ToolState) (turn calls : Nat),
      (orchLoop env query st turn calls r).llmCalls ≤ calls + r := by
  intro r
  induction r with
  | zero => intro st turn calls; simp [orchLoop]
  | succ n ih =>
      intro st turn calls
      cases hr : respText (env.llm turn) with
      | some t =>
          rw [orchLoop_turn_text env query st turn calls n t hr]
          show calls + 1 ≤ calls + (n + 1)
          omega
      | none =>
          rw [orchLoop_turn_tools env query st turn calls n hr]
          cases he : (processParts env query st (env.llm turn).parts).1.isEmpty with
          | true =>
              rw [if_pos rfl]
              show calls + 1 ≤ calls + (n + 1)
              omega
          | false =>
              rw [if_neg (by simp)]
              have := ih (processParts env query st (env.llm turn).parts).2 (turn + 1) (calls + 1)
              omega

/-- A parts list containing a function call never yields an empty
tool-response list. -/
theorem processParts_ne_nil (env : OrchEnv) (query : String) :
    ∀ (parts : List LLMPart) (st : ToolState),
      parts.any LLMPart.isCall = true →
      (processParts env query st parts).1 ≠ [] := by
  intro parts
  induction parts with
  | nil => intro st h; simp at h
  | cons p rest ih =>
      intro st h
      cases p with
      | text s =>
          simp [LLMPart.isCall] at h
          simp [processParts]
          exact ih st (by simp [List.any]; exact h)
      | call name args => simp [processParts]

/-- A response with a function-call part has no `.text`. -/
theorem respText_none_of_call (r : LLMResp)
    (h : r.parts.any LLMPart.isCall = true) : respText r = none := by
  simp [respText, h]

/-- If the model never produces text, the loop exhausts its budget and
returns the apology, making exactly one LLM call per budgeted turn. -/
theorem orchLoop_exhausts (env : OrchEnv) (query : String) :
    ∀ (r : Nat) (st : ToolState) (turn calls : Nat),
      (∀ t, turn ≤ t → t < turn + r → ((env.llm t).parts.any LLMPart.isCall) = true) →
      (orchLoop env query st turn calls r).response = budgetApology ∧
        (orchLoop env query st turn calls r).llmCalls = calls + r := by
  intro r
  induction r with
  | zero => intro st turn calls _; simp [orchLoop]
  | succ n ih =>
      intro st turn calls h
      have hcall : ((env.llm turn).parts.any LLMPart.isCall) = true :=
        h turn (Nat.le_refl _) (by omega)
      have hne := processParts_ne_nil env query (env.llm turn).parts st hcall
      have he : (processParts env query st (env.llm turn).parts).1.isEmpty = false := by
        cases hc : (processParts env query st (env.llm turn).parts).1 with
        | nil => exact absurd hc hne
        | cons a l => rfl
      rw [orchLoop_turn_tools env query st turn calls n (respText_none_of_call _ hcall), he,
        if_neg (by simp)]
      have := ih (processParts env query st (env.llm turn).parts).2 (turn + 1) (calls + 1)
        (fun t h1 h2 => h t (by omega) (by omega))
      refine ⟨this.1, ?_⟩
      rw [this.2]
      omega

/-- C2: the orchestrator makes at most `maxTurns = 5` LLM turns for every
environment and query, and an adversarial model that never produces plain
text exhausts the budget and receives the fixed apology message. -/
theorem orchestrator_turn_budget (env : OrchEnv) (query : String) :
    (process_chat_request env query).llmCalls ≤ maxTurns ∧
      ((∀ t, t < maxTurns → ((env.llm t).parts.any LLMPart.isCall) = true) →
        (process_chat_request env query).response = budgetApology ∧
          (process_chat_request env query).llmCalls = maxTurns) := by
  constructor
  · have := orchLoop_calls_le env query maxTurns { sources := [], wsCalls := 0 } 0 0
    simpa [process_chat_request] using this
  · intro h
    have := orchLoop_exhausts env query maxTurns { sources := [], wsCalls := 0 } 0 0
      (fun t h1 h2 => h t (by omega))
    simpa [process_chat_request] using this

/-- Witness for C2: an environment that always answers with a tool call
runs exactly five turns and ends in the apology. -/
theorem orchestrator_turn_budget_witness :
    (process_chat_request envLoop "any question").llmCalls ≤ maxTurns ∧
      (process_chat_request envLoop "any question").response = budgetApology ∧
        (process_chat_request envLoop "any question").llmCalls = maxTurns :=
  ⟨(orchestrator_turn_budget envLoop "any question").1,
   (orchestrator_turn_budget envLoop "any question").2 (fun _ _ => rfl)⟩

/-- Processing a concatenated parts list processes the two halves in
order, threading the tool state. -/
theorem processParts_append (env : OrchEnv) (query : String)
    (pre post : List LLMPart) :
    ∀ st : ToolState,
      processParts env query st (pre ++ post) =
        ((processParts env query st pre).1 ++
           (processParts env query (processParts env query st pre).2 post).1,
         (processParts env query (processParts env query st pre).2 post).2) := by
  induction pre with
  | nil => intro st; simp [processParts]
  | cons p rest ih =>
      intro st
      cases p with
      | text s => simp [processParts, ih]
      | call name args => simp [processParts, ih]

/-- The exception wrap payload of the per-tool `except` handler. -/
theorem execPart_exn (env : OrchEnv) (query : String) (st : ToolState)
    (name : String) (args : JValue) (module msg : String)
    (hreg : registryLookup TOOL_REGISTRY name = some module)
    (hexn : env.exec name args = ToolOutcome.exn msg) :
    execPart env query st name args =
      ([("error", JValue.jstr ("Execution failed for tool \x27" ++ name ++ "\x27: " ++ msg))],
       st) := by
  unfold execPart
  rw [hreg, hexn]

/-- C3: a registered tool whose body raises is wrapped into the
`Execution failed` error payload by the per-tool catch; every sibling tool
call of the same turn is still processed in order, with the loop state
unchanged by the failing call — the exception never escapes the turn. -/
theorem tool_exception_isolated (env : OrchEnv) (query : String)
    (st : ToolState) (pre post : List LLMPart) (name : String)
    (args : JValue) (module msg : String)
    (hreg : registryLookup TOOL_REGISTRY name = some module)
    (hexn : env.exec name args = ToolOutcome.exn msg) :
    processParts env query st (pre ++ LLMPart.call name args :: post) =
      ((processParts env query st pre).1 ++
         (name, [("error",
             JValue.jstr ("Execution failed for tool \x27" ++ name ++ "\x27: " ++ msg))]) ::
           (processParts env query (processParts env query st pre).2 post).1,
       (processParts env query (processParts env query st pre).2 post).2) := by
  rw [processParts_append]
  have hmid : processParts env query (processParts env query st pre).2
      (LLMPart.call name args :: post) =
      ((name, [("error",
          JValue.jstr ("Execution failed for tool \x27" ++ name ++ "\x27: " ++ msg))]) ::
        (processParts env query (processParts env query st pre).2 post).1,
       (processParts env query (processParts env query st pre).2 post).2) := by
    show (let r := execPart env query (processParts env query st pre).2 name args
          let more := processParts env query r.2 post
          ((name, r.1) :: more.1, more.2)) = _
    rw [execPart_exn env query _ name args module msg hreg hexn]
  rw [hmid]

/-- Witness for C3: with `get_h2h_events` raising, the failing call is
wrapped and both its siblings still execute. -/
theorem tool_exception_isolated_witness :
    registryLookup TOOL_REGISTRY "get_h2h_events" = some "tennis_api_client" ∧
      envExn.exec "get_h2h_events" JValue.jnull = ToolOutcome.exn "boom" ∧
      processParts envExn "q" { sources := [], wsCalls := 0 }
          [LLMPart.call "get_rankings" JValue.jnull,
           LLMPart.call "get_h2h_events" JValue.jnull,
           LLMPart.call "get_live_events" JValue.jnull] =
        (((processParts envExn "q" { sources := [], wsCalls := 0 }
              [LLMPart.call "get_rankings" JValue.jnull]).1 ++
            ("get_h2h_events",
              [("error", JValue.jstr "Execution failed for tool \x27get_h2h_events\x27: boom")]) ::
              (processParts envExn "q"
                  (processParts envExn "q" { sources := [], wsCalls := 0 }
                    [LLMPart.call "get_rankings" JValue.jnull]).2
                  [LLMPart.call "get_live_events" JValue.jnull]).1),
         (processParts envExn "q"
             (processParts envExn "q" { sources := [], wsCalls := 0 }
               [LLMPart.call "get_rankings" JValue.jnull]).2
             [LLMPart.call "get_live_events" JValue.jnull]).2) :=
  ⟨rfl, rfl,
   tool_exception_isolated envExn "q" { sources := [], wsCalls := 0 }
     [LLMPart.call "get_rankings" JValue.jnull]
     [LLMPart.call "get_live_events" JValue.jnull]
     "get_h2h_events" JValue.jnull "tennis_api_client" "boom" rfl rfl⟩

/-- C4: a registered primary tool returning an error payload triggers the
web-search fallback on the original query and has its response replaced by
the merged payload; the web-search tool itself returning an error payload
never triggers the fallback. -/
theorem error_payload_fallback (env : OrchEnv) (query : String)
    (st : ToolState) (name : String) (args : JValue) (module : String)
    (out : JDict)
    (hreg : registryLookup TOOL_REGISTRY name = some module)
    (hok : env.exec name args = ToolOutcome.ok out)
    (herr : hasKey out "error" = true) :
    (name ≠ "perform_web_search" →
      (execPart env query st name args).1 =
        [("original_tool_error", JValue.jobj out),
         ("web_search_context",
           (jlookup (env.webSearch query) "context").getD
             (JValue.jstr "No information found from web search."))] ∧
      (execPart env query st name args).2.wsCalls = st.wsCalls + 1) ∧
    (name = "perform_web_search" →
      (execPart env query st name args).1 = out ∧
      (execPart env query st name args).2.wsCalls = st.wsCalls) := by
  constructor
  · intro hne
    have hb : (name != "perform_web_search") = true := by
      simp [bne_iff_ne]; exact hne
    unfold execPart
    rw [hreg, hok]
    simp only [herr, hb, Bool.and_self, if_true]
    exact ⟨trivial, by split <;> rfl⟩
  · intro heq
    subst heq
    unfold execPart
    rw [hreg, hok]
    simp only [bne_self_eq_false, Bool.and_false, Bool.false_eq_true, if_false]
    exact ⟨trivial, by split <;> rfl⟩

/-- Witness for C4: a primary tool error triggers the merged web-search
fallback payload at a concrete environment. -/
theorem error_payload_fallback_witness :
    registryLookup TOOL_REGISTRY "get_h2h_events" = some "tennis_api_client" ∧
      envFallback.exec "get_h2h_events" JValue.jnull =
        ToolOutcome.ok [("error", JValue.jstr "upstream 500")] ∧
      hasKey [("error", JValue.jstr "upstream 500")] "error" = true ∧
      (execPart envFallback "original query" { sources := [], wsCalls := 0 }
          "get_h2h_events" JValue.jnull).1 =
        [("original_tool_error", JValue.jobj [("error", JValue.jstr "upstream 500")]),
         ("web_search_context", JValue.jstr "web context")] ∧
      (execPart envFallback "original query" { sources := [], wsCalls := 0 }
          "get_h2h_events" JValue.jnull).2.wsCalls = 1 := by
  refine ⟨rfl, rfl, rfl, ?_, ?_⟩
  · have := (error_payload_fallback envFallback "original query"
      { sources := [], wsCalls := 0 } "get_h2h_events" JValue.jnull
      "tennis_api_client" [("error", JValue.jstr "upstream 500")] rfl rfl rfl).1
      (by decide)
    rw [this.1]
    rfl
  · exact (((error_payload_fallback envFallback "original query"
      { sources := [], wsCalls := 0 } "get_h2h_events" JValue.jnull
      "tennis_api_client" [("error", JValue.jstr "upstream 500")] rfl rfl rfl).1
      (by decide)).2)

/-- Monadic return in `Except` is `ok`. -/
theorem pure_ok {α : Type} (v : α) : (pure v : Except String α) = Except.ok v := rfl

/-- Reduction of a successful bind. -/
theorem ok_bind {α β : Type} (v : α) (f : α → Except String β) :
    (Except.ok v >>= f) = f v := rfl

/-- Propagation of a failed bind. -/
theorem error_bind {α β : Type} (e : String) (f : α → Except String β) :
    ((Except.error e : Except String α) >>= f) = Except.error e := rfl

/-- A well-formed optional field defaults to a dict. -/
theorem getD_isObjOpt (o : Option JValue) (h : isObjOpt o = true) :
    ∃ f, o.getD emptyObj = JValue.jobj f := by
  cases o with
  | none => exact ⟨[], rfl⟩
  | some v => cases v <;> first | exact ⟨_, rfl⟩ | simp [isObjOpt] at h

/-- A well-formed category value passes the `or {}` guard as a dict. -/
theorem pyOr_obj (o : Option JValue) (h : categoryOk o = true) :
    ∃ f, pyOr (o.getD JValue.jnull) emptyObj = JValue.jobj f := by
  cases o with
  | none => exact ⟨[], rfl⟩
  | some c =>
      cases c with
      | jobj cf =>
          unfold pyOr
          split
          · exact ⟨cf, rfl⟩
          · exact ⟨[], rfl⟩
      | jnull => exact ⟨[], rfl⟩
      | jbool b =>
          simp [categoryOk, JValue.truthy] at h
          exact ⟨[], by simp [pyOr, JValue.truthy, h, emptyObj]⟩
      | jint n =>
          simp [categoryOk, JValue.truthy] at h
          exact ⟨[], by simp [pyOr, JValue.truthy, h, emptyObj]⟩
      | jstr s =>
          simp [categoryOk, JValue.truthy] at h
          exact ⟨[], by simp [pyOr, JValue.truthy, h, emptyObj]⟩
      | jarr xs =>
          simp [categoryOk, JValue.truthy] at h
          exact ⟨[], by simp [pyOr, JValue.truthy, h, emptyObj]⟩

/-- A well-formed event is reduced by `simplify_event` to a preview entry
carrying exactly the eight preview fields. -/
theorem simplify_event_wf (e : JValue) (h : eventWF e = true) :
    ∃ d : JDict, simplify_event e = Except.ok (JValue.jobj d) ∧
      d.map Prod.fst = previewKeys := by
  cases e with
  | jobj f =>
      have h' : (isObjOpt (jlookup f "tournament") && isObjOpt (jlookup f "homeTeam") &&
          isObjOpt (jlookup f "awayTeam") && isObjOpt (jlookup f "status") &&
          categoryOk (jlookupIn ((jlookup f "tournament").getD emptyObj) "category")) = true := h
      rw [Bool.and_eq_true, Bool.and_eq_true, Bool.and_eq_true, Bool.and_eq_true] at h'
      obtain ⟨⟨⟨⟨h1, h2⟩, h3⟩, h4⟩, h5⟩ := h'
      obtain ⟨tf, htf⟩ := getD_isObjOpt _ h1
      obtain ⟨hf, hhf⟩ := getD_isObjOpt _ h2
      obtain ⟨af, haf⟩ := getD_isObjOpt _ h3
      obtain ⟨sf, hsf⟩ := getD_isObjOpt _ h4
      rw [htf] at h5
      obtain ⟨cf, hcf⟩ := pyOr_obj (jlookup tf "category") h5
      refine ⟨[("tournament", (jlookup tf "name").getD JValue.jnull),
               ("category", (jlookup cf "name").getD JValue.jnull),
               ("home_player", (jlookup hf "name").getD JValue.jnull),
               ("away_player", (jlookup af "name").getD JValue.jnull),
               ("status", (jlookup sf "description").getD (JValue.jstr "Scheduled")),
               ("event_id", (jlookup f "id").getD JValue.jnull),
               ("home_score", (jlookup f "homeScore").getD emptyObj),
               ("away_score", (jlookup f "awayScore").getD emptyObj)], ?_, rfl⟩
      simp only [simplify_event, pyGet, pyGetD, ok_bind, htf, hhf, haf, hsf, hcf, pure_ok]
  | jnull => simp [eventWF] at h
  | jbool b => simp [eventWF] at h
  | jint n => simp [eventWF] at h
  | jstr s => simp [eventWF] at h
  | jarr xs => simp [eventWF] at h

/-- A list of well-formed events simplifies to a same-length list of
preview entries. -/
theorem simplifyEvents_wf (l : List JValue) (h : l.all eventWF = true) :
    ∃ ps : List JValue, simplifyEvents l = Except.ok ps ∧
      ps.length = l.length ∧ ps.all reducedEntry = true := by
  induction l with
  | nil => exact ⟨[], rfl, rfl, rfl⟩
  | cons e es ih =>
      rw [List.all_cons, Bool.and_eq_true] at h
      obtain ⟨d, hd, hkeys⟩ := simplify_event_wf e h.1
      obtain ⟨ps, hps, hlen, hred⟩ := ih h.2
      refine ⟨JValue.jobj d :: ps, ?_, ?_, ?_⟩
      · simp only [simplifyEvents, hd, ok_bind, hps, pure_ok]
      · simp [hlen]
      · simp only [List.all_cons, Bool.and_eq_true]
        exact ⟨by simp [reducedEntry, hkeys], hred⟩

/-- C7 (amended): for a payload without an `error` key whose events list is
non-empty and whose first `min(n, 25)` events are well-formed,
`parse_event_list` reports the full count, returns `min(n, 25)` preview
entries reduced to the eight preview fields; with an empty (or absent)
events list it returns the neutral no-events summary. -/
theorem parse_event_list_spec (raw : JDict) (xs : List JValue)
    (h1 : hasKey raw "error" = false)
    (h2 : (jlookup raw "events").getD (JValue.jarr []) = JValue.jarr xs)
    (hwf : (xs.take 25).all eventWF = true) :
    (xs = [] →
      parse_event_list raw = [("summary", JValue.jstr "No events found for this query.")]) ∧
    (xs ≠ [] → ∃ ps : List JValue,
      parse_event_list raw =
        [("total_events_found", JValue.jint (Int.ofNat xs.length)),
         ("events_returned", JValue.jint (Int.ofNat ps.length)),
         ("events_preview", JValue.jarr ps)] ∧
      ps.length = min xs.length 25 ∧ ps.all reducedEntry = true) := by
  constructor
  · intro hnil
    subst hnil
    have hcore : parseEventListCore raw =
        Except.ok [("summary", JValue.jstr "No events found for this query.")] := by
      unfold parseEventListCore
      rw [h2]
      rfl
    simp [parse_event_list, h1, hcore]
  · intro hne
    obtain ⟨ps, hps, hlen, hred⟩ := simplifyEvents_wf _ hwf
    have htr : (JValue.jarr xs).truthy = true := by
      simp [JValue.truthy, List.isEmpty_iff, hne]
    have hcore : parseEventListCore raw =
        Except.ok [("total_events_found", JValue.jint (Int.ofNat xs.length)),
                   ("events_returned", JValue.jint (Int.ofNat ps.length)),
                   ("events_preview", JValue.jarr ps)] := by
      unfold parseEventListCore
      rw [h2]
      simp only [htr, if_true, hps, ok_bind, pure_ok]
    refine ⟨ps, ?_, ?_, hred⟩
    · simp [parse_event_list, h1, hcore]
    · rw [hlen, List.length_take]
      exact Nat.min_comm 25 xs.length

/-- Witness for the amended C7 at a concrete three-event payload. -/
theorem parse_event_list_spec_witness :
    hasKey [("events", JValue.jarr [eventSample, eventSample, eventSample])] "error" = false ∧
      ([eventSample, eventSample, eventSample].take 25).all eventWF = true ∧
      ∃ ps : List JValue,
        parse_event_list [("events", JValue.jarr [eventSample, eventSample, eventSample])] =
          [("total_events_found", JValue.jint 3),
           ("events_returned", JValue.jint (Int.ofNat ps.length)),
           ("events_preview", JValue.jarr ps)] ∧
        ps.length = min 3 25 ∧ ps.all reducedEntry = true :=
  ⟨rfl, by decide,
   (parse_event_list_spec [("events", JValue.jarr [eventSample, eventSample, eventSample])]
     [eventSample, eventSample, eventSample] rfl rfl (by decide)).2 (by simp)⟩

/-- An event whose `tournament` field is present but not a dict (the case
for every produced preview entry whose tournament was reduced to a name
string or `None`) makes `simplify_event` raise `AttributeError`. -/
theorem simplify_event_tournament_bad (d : JDict)
    (h : isObjOpt (jlookup d "tournament") = false) :
    simplify_event (JValue.jobj d) = Except.error "AttributeError" := by
  cases hT : jlookup d "tournament" with
  | none => rw [hT] at h; simp [isObjOpt] at h
  | some v =>
      rw [hT] at h
      cases v with
      | jobj tf => simp [isObjOpt] at h
      | jnull => simp only [simplify_event, pyGet, pyGetD, ok_bind, hT]; rfl
      | jbool b => simp only [simplify_event, pyGet, pyGetD, ok_bind, hT]; rfl
      | jint n => simp only [simplify_event, pyGet, pyGetD, ok_bind, hT]; rfl
      | jstr s => simp only [simplify_event, pyGet, pyGetD, ok_bind, hT]; rfl
      | jarr xs => simp only [simplify_event, pyGet, pyGetD, ok_bind, hT]; rfl

/-- C8 (amended): re-simplification is not idempotent — feeding a payload
whose first event has a non-dict `tournament` field (as every ordinary
preview entry does) back into `parse_event_list` yields the fixed
parse-error payload instead of the same entries. -/
theorem resimplify_preview_errors (raw : JDict) (d : JDict)
    (rest : List JValue)
    (h1 : hasKey raw "error" = false)
    (h2 : (jlookup raw "events").getD (JValue.jarr []) = JValue.jarr (JValue.jobj d :: rest))
    (h3 : isObjOpt (jlookup d "tournament") = false) :
    parse_event_list raw = errEventList := by
  have hbad := simplify_event_tournament_bad d h3
  have hcore : parseEventListCore raw = Except.error "AttributeError" := by
    unfold parseEventListCore
    rw [h2]
    simp only [JValue.truthy, List.isEmpty_cons, Bool.not_false, if_true,
      List.take_cons, simplifyEvents, hbad, error_bind]
  simp [parse_event_list, h1, hcore, errEventList]

/-- Counterexample to C8 as stated: simplifying a one-event payload and
re-simplifying its produced `events_preview` returns the parse-error
payload, not the same entries. -/
theorem resimplify_counterexample :
    parse_event_list [("events", JValue.jarr [eventSample])] =
      [("total_events_found", JValue.jint 1), ("events_returned", JValue.jint 1),
       ("events_preview", JValue.jarr
         [JValue.jobj [("tournament", JValue.jstr "Wimbledon"),
           ("category", JValue.jstr "ATP"), ("home_player", JValue.jstr "A"),
           ("away_player", JValue.jstr "B"), ("status", JValue.jstr "Finished"),
           ("event_id", JValue.jint 7),
           ("home_score", JValue.jobj [("current", JValue.jint 2)]),
           ("away_score", JValue.jobj [])]])] ∧
    parse_event_list [("events", JValue.jarr
        [JValue.jobj [("tournament", JValue.jstr "Wimbledon"),
          ("category", JValue.jstr "ATP"), ("home_player", JValue.jstr "A"),
          ("away_player", JValue.jstr "B"), ("status", JValue.jstr "Finished"),
          ("event_id", JValue.jint 7),
          ("home_score", JValue.jobj [("current", JValue.jint 2)]),
          ("away_score", JValue.jobj [])]])] = errEventList :=
  ⟨rfl, rfl⟩

/-- Witness for the amended C8 at the produced preview entry. -/
theorem resimplify_preview_errors_witness :
    hasKey [("events", JValue.jarr [JValue.jobj [("tournament", JValue.jstr "Wimbledon")]])]
        "error" = false ∧
      isObjOpt (jlookup [("tournament", JValue.jstr "Wimbledon")] "tournament") = false ∧
      parse_event_list
          [("events", JValue.jarr [JValue.jobj [("tournament", JValue.jstr "Wimbledon")]])] =
        errEventList :=
  ⟨rfl, rfl,
   resimplify_preview_errors
     [("events", JValue.jarr [JValue.jobj [("tournament", JValue.jstr "Wimbledon")]])]
     [("tournament", JValue.jstr "Wimbledon")] [] rfl rfl rfl⟩

/-- One win-count step increments at most one counter by at most one. -/
theorem h2hWinsStep_sum (p1 p2 : Int) (acc a2 : Nat × Nat) (m : JValue)
    (h : h2hWinsStep p1 p2 acc m = Except.ok a2) :
    a2.1 + a2.2 ≤ acc.1 + acc.2 + 1 := by
  unfold h2hWinsStep at h
  obtain ⟨wc, hwc, h⟩ := bindOk h
  obtain ⟨htm, hhtm, h⟩ := bindOk h
  obtain ⟨hid, hhid, h⟩ := bindOk h
  obtain ⟨atm, hatm, h⟩ := bindOk h
  obtain ⟨aid, haid, h⟩ := bindOk h
  split at h <;> [skip; split at h] <;> [skip; skip; split at h] <;>
    [skip; skip; skip; split at h] <;>
    simp only [pure_ok, Except.ok.injEq] at h <;> subst h <;> simp <;> omega

/-- The win counts grow by at most one per event. -/
theorem h2hWins_bound (p1 p2 : Int) :
    ∀ (evs : List JValue) (acc r : Nat × Nat),
      h2hWins p1 p2 evs acc = Except.ok r →
      r.1 + r.2 ≤ acc.1 + acc.2 + evs.length := by
  intro evs
  induction evs with
  | nil =>
      intro acc r h
      simp only [h2hWins, Except.ok.injEq] at h
      subst h
      simp
  | cons m ms ih =>
      intro acc r h
      simp only [h2hWins] at h
      obtain ⟨a2, ha2, hrest⟩ := bindOk h
      have h1 := h2hWinsStep_sum p1 p2 acc a2 m ha2
      have h2 := ih a2 r hrest
      simp only [List.length_cons]
      omega

/-- A well-formed optional dict field defaults to exactly its fields. -/
theorem getD_fieldsOfOpt (o : Option JValue) (h : isObjOpt o = true) :
    o.getD emptyObj = JValue.jobj (fieldsOfOpt o) := by
  cases o with
  | none => rfl
  | some v => cases v <;> first | rfl | simp [isObjOpt] at h

/-- The score comprehension succeeds when every truthy home period has an
away counterpart. -/
theorem scoreParts_ok (hsd asd : JDict) :
    ∀ ks : List String,
      ks.all (fun k => !((jlookup hsd k).getD JValue.jnull).truthy || hasKey asd k) = true →
      ∃ ps, scoreParts (JValue.jobj hsd) (JValue.jobj asd) ks = Except.ok ps := by
  intro ks
  induction ks with
  | nil => intro _; exact ⟨[], rfl⟩
  | cons k rest ih =>
      intro h
      rw [List.all_cons, Bool.and_eq_true] at h
      obtain ⟨ps, hps⟩ := ih h.2
      have h1 := h.1
      simp only [scoreParts, pyGet, pyGetD, ok_bind]
      cases ht : ((jlookup hsd k).getD JValue.jnull).truthy with
      | false => exact ⟨ps, by rw [if_neg (by simp)]; exact hps⟩
      | true =>
          have hkey : hasKey asd k = true := by simpa [ht] using h1
          obtain ⟨hv, hhv⟩ : ∃ v, jlookup hsd k = some v := by
            cases hl : jlookup hsd k with
            | none => rw [hl] at ht; simp [JValue.truthy] at ht
            | some v => exact ⟨v, rfl⟩
          obtain ⟨av, hav⟩ : ∃ v, jlookup asd k = some v := by
            rw [hasKey] at hkey
            cases hl : jlookup asd k with
            | none => rw [hl] at hkey; simp at hkey
            | some v => exact ⟨v, rfl⟩
          refine ⟨(pyStr hv ++ "-" ++ pyStr av) :: ps, ?_⟩
          rw [if_pos rfl]
          simp only [pySubscript, hhv, hav, ok_bind, hps, pure_ok]

/-- A truthy well-formed timestamp is an integer field. -/
theorem ts_truthy_int (d : JDict) (hTS : tsOk (jlookup d "startTimestamp") = true)
    (ht : ((jlookup d "startTimestamp").getD JValue.jnull).truthy = true) :
    ∃ n : Int, jlookup d "startTimestamp" = some (JValue.jint n) := by
  cases hl : jlookup d "startTimestamp" with
  | none => rw [hl] at ht; simp [JValue.truthy] at ht
  | some v =>
      rw [hl] at hTS ht
      cases v with
      | jint n => exact ⟨n, rfl⟩
      | jnull => simp [JValue.truthy] at ht
      | jbool b => simp [tsOk, JValue.truthy] at hTS; simp [JValue.truthy, hTS] at ht
      | jstr s => simp [tsOk, JValue.truthy] at hTS; simp [JValue.truthy, hTS] at ht
      | jarr xs => simp [tsOk, JValue.truthy] at hTS; simp [JValue.truthy, hTS] at ht
      | jobj f => simp [tsOk, JValue.truthy] at hTS; simp [JValue.truthy, hTS] at ht

/-- A well-formed recent event is summarised without raising. -/
theorem recentMatch_ok (fmt : Int → String) (m : JValue)
    (h : recentWF m = true) : ∃ r, recentMatch fmt m = Except.ok r := by
  cases m with
  | jobj d =>
      have h' : (isObjOpt (jlookup d "homeScore") && isObjOpt (jlookup d "awayScore") &&
          isObjOpt (jlookup d "tournament") && isObjOpt (jlookup d "homeTeam") &&
          isObjOpt (jlookup d "awayTeam") && tsOk (jlookup d "startTimestamp") &&
          periodsOk (fieldsOfOpt (jlookup d "homeScore"))
            (fieldsOfOpt (jlookup d "awayScore"))) = true := h
      rw [Bool.and_eq_true, Bool.and_eq_true, Bool.and_eq_true, Bool.and_eq_true,
        Bool.and_eq_true, Bool.and_eq_true] at h'
      obtain ⟨⟨⟨⟨⟨⟨hHS, hAS⟩, hT⟩, hHT⟩, hAT⟩, hTS⟩, hPer⟩ := h'
      rw [periodsOk] at hPer
      obtain ⟨ps, hps⟩ := scoreParts_ok _ _ periodKeys hPer
      obtain ⟨tf, htf⟩ := getD_isObjOpt _ hT
      obtain ⟨htmf, hhtmf⟩ := getD_isObjOpt _ hHT
      obtain ⟨atmf, hatmf⟩ := getD_isObjOpt _ hAT
      simp only [recentMatch, pyGet, pyGetD, ok_bind, getD_fieldsOfOpt _ hHS,
        getD_fieldsOfOpt _ hAS, hps, htf, hhtmf, hatmf]
      cases ht : ((jlookup d "startTimestamp").getD JValue.jnull).truthy with
      | false =>
          rw [if_neg (by simp)]
          split
          · exact ⟨_, rfl⟩
          · exact ⟨_, rfl⟩
      | true =>
          obtain ⟨n, hn⟩ := ts_truthy_int d hTS ht
          rw [if_pos rfl]
          simp only [pySubscript, hn, ok_bind, pyTimestamp]
          split
          · exact ⟨_, rfl⟩
          · exact ⟨_, rfl⟩
  | jnull => simp [recentWF] at h
  | jbool b => simp [recentWF] at h
  | jint n => simp [recentWF] at h
  | jstr s => simp [recentWF] at h
  | jarr xs => simp [recentWF] at h

/-- A list of well-formed recent events is summarised without raising. -/
theorem recentMatches_ok (fmt : Int → String) :
    ∀ l : List JValue, l.all recentWF = true →
      ∃ rs, recentMatches fmt l = Except.ok rs := by
  intro l
  induction l with
  | nil => intro _; exact ⟨[], rfl⟩
  | cons m ms ih =>
      intro h
      rw [List.all_cons, Bool.and_eq_true] at h
      obtain ⟨r, hr⟩ := recentMatch_ok fmt m h.1
      obtain ⟨rs, hrs⟩ := ih h.2
      exact ⟨r :: rs, by simp only [recentMatches, hr, ok_bind, hrs, pure_ok]⟩

/-- C6: for well-formed H2H events of two distinct player ids, the win
counts sum to at most the number of events, and the summary sentence names
a player as leader exactly when that player's count is strictly greater,
stating a tie when the counts are equal. -/
theorem h2h_summary_spec (h2h : JDict) (p1 p2 : Int) (n1 n2 : String)
    (fmt : Int → String) (evs : List JValue) (c1 c2 : JValue) (w1 w2 : Nat)
    (_h12 : p1 ≠ p2)
    (hev : (jlookup h2h "events").getD (JValue.jarr []) = JValue.jarr evs)
    (hwf3 : (evs.take 3).all recentWF = true)
    (hc : h2hCanonical (JValue.jarr evs) p1 p2 n1 n2 = Except.ok (c1, c2))
    (hw : h2hWins p1 p2 evs (0, 0) = Except.ok (w1, w2)) :
    w1 + w2 ≤ evs.length ∧
    (w2 < w1 → jlookup (parse_h2h_data h2h p1 p2 n1 n2 fmt) "summary" =
       some (JValue.jstr (leadsSentence c1 c2 w1 w2))) ∧
    (w1 < w2 → jlookup (parse_h2h_data h2h p1 p2 n1 n2 fmt) "summary" =
       some (JValue.jstr (leadsSentence c2 c1 w2 w1))) ∧
    (w1 = w2 → jlookup (parse_h2h_data h2h p1 p2 n1 n2 fmt) "summary" =
       some (JValue.jstr (tiedSentence c1 c2 w1))) := by
  obtain ⟨recs, hrecs⟩ := recentMatches_ok fmt _ hwf3
  have hcore : parseH2HCore h2h p1 p2 n1 n2 fmt =
      Except.ok [("summary", JValue.jstr
          (if w1 > w2 then leadsSentence c1 c2 w1 w2
           else if w2 > w1 then leadsSentence c2 c1 w2 w1
           else tiedSentence c1 c2 w1)),
        ("overall_record", JValue.jobj
          (pyInsert (pyInsert [] (pyStr c1 ++ "_wins") (JValue.jint (Int.ofNat w1)))
            (pyStr c2 ++ "_wins") (JValue.jint (Int.ofNat w2)))),
        ("recent_matches", JValue.jarr recs)] := by
    unfold parseH2HCore
    rw [hev]
    simp only [hc, ok_bind, pyIterate, hw, pySliceN, hrecs, pure_ok]
  have hsum := h2hWins_bound p1 p2 evs (0, 0) (w1, w2) hw
  refine ⟨by simpa using hsum, ?_, ?_, ?_⟩
  · intro hgt
    simp only [parse_h2h_data, hcore, jlookup]
    rw [if_pos (by omega : w1 > w2)]
    rfl
  · intro hgt
    simp only [parse_h2h_data, hcore, jlookup]
    rw [if_neg (by omega : ¬ w1 > w2), if_pos (by omega : w2 > w1)]
    rfl
  · intro heq
    simp only [parse_h2h_data, hcore, jlookup]
    rw [if_neg (by omega : ¬ w1 > w2), if_neg (by omega : ¬ w2 > w1)]
    rfl

/-- Witness for C6 at a four-event head-to-head, three won by the home
player. -/
theorem h2h_summary_spec_witness :
    (10 : Int) ≠ 20 ∧
    h2hWins 10 20 [h2hEvent 1, h2hEvent 1, h2hEvent 1, h2hEvent 2] (0, 0) =
      Except.ok (3, 1) ∧
    3 + 1 ≤ [h2hEvent 1, h2hEvent 1, h2hEvent 1, h2hEvent 2].length ∧
    jlookup (parse_h2h_data h2hSample 10 20 "a" "b" (fun _ => "2023-11-14")) "summary" =
      some (JValue.jstr "A leads B 3-1 in their head-to-head.") := by
  have h := h2h_summary_spec h2hSample 10 20 "a" "b" (fun _ => "2023-11-14")
    [h2hEvent 1, h2hEvent 1, h2hEvent 1, h2hEvent 2]
    (JValue.jstr "A") (JValue.jstr "B") 3 1
    (by decide) rfl rfl rfl rfl
  refine ⟨by decide, rfl, h.1, ?_⟩
  rw [h.2.1 (by omega)]
  rfl

/-- Equality with an integer JSON value is structural. -/
theorem jvBeq_int (v : JValue) (n : Int) (h : jvBeq v (JValue.jint n) = true) :
    v = JValue.jint n := by
  cases v with
  | jint m => simp [jvBeq] at h; rw [h]
  | jnull => simp [jvBeq] at h
  | jbool b => simp [jvBeq] at h
  | jstr s => simp [jvBeq] at h
  | jarr xs => simp [jvBeq] at h
  | jobj d => simp [jvBeq] at h

/-- Keys of the de-duplication dict after one insertion. -/
theorem upsertJ_keys (acc : List (JValue × JValue)) (n : Int) (v : JValue) :
    (upsertJ acc (JValue.jint n) v).map Prod.fst =
      if acc.any (fun p => jvBeq p.1 (JValue.jint n)) then acc.map Prod.fst
      else acc.map Prod.fst ++ [JValue.jint n] := by
  unfold upsertJ
  split
  · rw [List.map_map]
    apply List.map_congr_left
    intro p _
    simp only [Function.comp]
    split <;> rfl
  · simp

/-- The de-duplication dict invariant is preserved by insertion. -/
theorem upsertJ_wf (acc : List (JValue × JValue)) (n : Int) (v : JValue)
    (h : accWF acc = true) (hv : matchWFplayer v = true)
    (hid : idOf v = JValue.jint n) :
    accWF (upsertJ acc (JValue.jint n) v) = true := by
  unfold upsertJ
  split
  · rw [accWF, List.all_map, List.all_eq_true]
    intro p hp
    have hpw := (List.all_eq_true.mp h) p hp
    by_cases hb : jvBeq p.1 (JValue.jint n) = true
    · have hp1 := jvBeq_int p.1 n hb
      simp only [Function.comp, hb, if_true]
      simp [isJInt, hv, hid, jvBeq, hp1]
    · simp only [Function.comp, hb, if_false]
      exact hpw
  · rw [accWF, List.all_append, Bool.and_eq_true]
    constructor
    · exact h
    · simp [isJInt, hv, hid, jvBeq]

/-- The de-duplication dict of the resolver: its construction succeeds on
well-formed candidates, its key list is the first-occurrence
de-duplication of the candidate ids, and its entries keep the invariant. -/
theorem buildUnique_spec :
    ∀ (ms : List JValue) (acc : List (JValue × JValue)),
      ms.all matchWFplayer = true → accWF acc = true →
      ∃ u, buildUnique ms acc = Except.ok u ∧
        u.map Prod.fst = dedupInto (acc.map Prod.fst) (ms.map idOf) ∧
        accWF u = true := by
  intro ms
  induction ms with
  | nil => intro acc _ hacc; exact ⟨acc, rfl, rfl, hacc⟩
  | cons m tail ih =>
      intro acc hwf hacc
      rw [List.all_cons, Bool.and_eq_true] at hwf
      obtain ⟨hm, htail⟩ := hwf
      cases m with
      | jobj d =>
          have hid : ∃ n : Int, jlookup d "id" = some (JValue.jint n) := by
            cases hl : jlookup d "id" with
            | none => simp [matchWFplayer, hl] at hm
            | some w =>
                cases w with
                | jint n => exact ⟨n, rfl⟩
                | jnull => simp [matchWFplayer, hl] at hm
                | jbool b => simp [matchWFplayer, hl] at hm
                | jstr s => simp [matchWFplayer, hl] at hm
                | jarr xs => simp [matchWFplayer, hl] at hm
                | jobj f2 => simp [matchWFplayer, hl] at hm
          obtain ⟨n, hn⟩ := hid
          have hidof : idOf (JValue.jobj d) = JValue.jint n := by
            simp [idOf, hn]
          have hacc2 := upsertJ_wf acc n (JValue.jobj d) hacc hm hidof
          obtain ⟨u, hu, hkeys, huwf⟩ :=
            ih (upsertJ acc (JValue.jint n) (JValue.jobj d)) htail hacc2
          refine ⟨u, ?_, ?_, huwf⟩
          · simp only [buildUnique, pySubscript, hn, ok_bind, hashable, if_true]
            exact hu
          · rw [hkeys, upsertJ_keys acc n (JValue.jobj d)]
            simp only [List.map_cons, hidof, dedupInto, List.any_map]
            by_cases hcond : acc.any (fun p => jvBeq p.1 (JValue.jint n)) = true
            · rw [if_pos hcond, if_pos (by simpa [Function.comp] using hcond)]
            · rw [if_neg hcond, if_neg (by simpa [Function.comp] using hcond)]
      | jnull => simp [matchWFplayer] at hm
      | jbool b => simp [matchWFplayer] at hm
      | jint k => simp [matchWFplayer] at hm
      | jstr s => simp [matchWFplayer] at hm
      | jarr xs => simp [matchWFplayer] at hm

/-- C1 (amended): when the cleaned query has at least one token, the
resolver returns `some id` exactly when the de-duplicated ids of the
collected relaxed-equality candidates form a singleton, and `none` for
zero or several — ambiguity is never resolved by picking the first. -/
theorem find_player_unique (api : String → JDict) (name : String)
    (pmatches : List JValue)
    (hq : queryParts name ≠ [])
    (hm : collectAll api (queryParts name) (searchTerms name) = Except.ok pmatches)
    (hwf : pmatches.all matchWFplayer = true) :
    find_player_id_by_name api name =
      Except.ok (match dedupInto [] (pmatches.map idOf) with
                 | [i] => some i
                 | _ => none) := by
  have hqe : (queryParts name).isEmpty = false := by
    cases hql : queryParts name
    · exact absurd hql hq
    · rfl
  unfold find_player_id_by_name
  simp only [hqe, Bool.false_eq_true, if_false, hm, ok_bind]
  cases pmatches with
  | nil => rfl
  | cons m ms =>
      simp only [List.isEmpty_cons, Bool.false_eq_true, if_false]
      obtain ⟨u, hu, hkeys, huwf⟩ := buildUnique_spec (m :: ms) [] hwf rfl
      simp only [List.map_nil] at hkeys
      simp only [hu, ok_bind]
      rw [← hkeys]
      cases u with
      | nil => rfl
      | cons p t =>
          cases t with
          | cons q t2 => rfl
          | nil =>
              obtain ⟨k, v⟩ := p
              simp only [accWF, List.all_cons, List.all_nil, Bool.and_true,
                Bool.and_eq_true] at huwf
              obtain ⟨⟨hk, hv⟩, hbeq⟩ := huwf
              have hkint : ∃ kn : Int, k = JValue.jint kn := by
                cases k <;> simp [isJInt] at hk
                case jint kn => exact ⟨kn, rfl⟩
              obtain ⟨kn, hkn⟩ := hkint
              have hidv : idOf v = k := by
                rw [hkn] at hbeq ⊢
                exact jvBeq_int _ _ hbeq
              have hvobj : ∃ dv, v = JValue.jobj dv := by
                cases v <;> simp [matchWFplayer] at hv
                case jobj dv => exact ⟨dv, rfl⟩
              obtain ⟨dv, hdv⟩ := hvobj
              subst hdv
              simp only [List.map_cons, List.map_nil]
              rw [show pyGet (JValue.jobj dv) "id" =
                Except.ok (idOf (JValue.jobj dv)) from rfl]
              simp only [ok_bind, pure_ok, hidv]

/-- Counterexample to C1 as stated: for the query `"."` the cleaned token
set is empty, so every candidate matches vacuously and exactly one
de-duplicated candidate (id 42) survives collection, yet the resolver
returns `none` via its empty-token early exit. -/
theorem resolver_empty_token_counterexample :
    find_player_id_by_name apiFed "." = Except.ok none ∧
    collectAll apiFed (queryParts ".") (searchTerms ".") =
      Except.ok [JValue.jobj [("id", JValue.jint 42), ("name", JValue.jstr "Roger Federer")]] ∧
    dedupInto []
        ([JValue.jobj [("id", JValue.jint 42), ("name", JValue.jstr "Roger Federer")]].map idOf) =
      [JValue.jint 42] :=
  ⟨rfl, rfl, rfl⟩

/-- Witness for the amended C1: `"Roger Federer"` is matched by both
search strategies, de-duplicated to one id, and resolved to it. -/
theorem find_player_unique_witness :
    queryParts "Roger Federer" ≠ [] ∧
    collectAll apiFed (queryParts "Roger Federer") (searchTerms "Roger Federer") =
      Except.ok [JValue.jobj [("id", JValue.jint 42), ("name", JValue.jstr "Roger Federer")],
                 JValue.jobj [("id", JValue.jint 42), ("name", JValue.jstr "Roger Federer")]] ∧
    find_player_id_by_name apiFed "Roger Federer" = Except.ok (some (JValue.jint 42)) := by
  refine ⟨by decide, rfl, ?_⟩
  rw [find_player_unique apiFed "Roger Federer"
    [JValue.jobj [("id", JValue.jint 42), ("name", JValue.jstr "Roger Federer")],
     JValue.jobj [("id", JValue.jint 42), ("name", JValue.jstr "Roger Federer")]]
    (by decide) rfl rfl]
  rfl

/-- Counterexample to C7 as stated: two payloads with a non-empty events
array for which the simplifier does not return the claimed
`total_events_found` summary — a payload with a malformed (non-dict) event
yields the parse-error payload, and a payload that also carries an `error`
key is passed through unchanged. -/
theorem event_list_counterexample :
    parse_event_list [("events", JValue.jarr [JValue.jint 1])] = errEventList ∧
    jlookup (parse_event_list [("events", JValue.jarr [JValue.jint 1])])
        "total_events_found" = none ∧
    parse_event_list [("error", JValue.jstr "boom"), ("events", JValue.jarr [eventSample])] =
      [("error", JValue.jstr "boom"), ("events", JValue.jarr [eventSample])] :=
  ⟨rfl, rfl, rfl⟩
